import Mathlib

/-
  Verification development for the `protocol` package of the repository
  (file internal/lsp/protocol/basic.go, "Basic JSON Structures" of the LSP
  specification), together with a model of the JSON-RPC codec that the
  specification describes around these schema types.

  Embedding conventions:
  * Go `string` is Lean `String`; a Go named string type is an abbreviation.
  * Go `float64` fields carry JSON numbers and are never computed with in
    this package; they are embedded as `Rat` (all values appearing in the
    source are small integers, which `Rat` represents exactly).
  * Go `uint64` is embedded as `Nat` (no arithmetic is performed, so no
    wrap-around is possible).
  * A Go pointer type `*T` in a schema position means "nullable" and is
    embedded as `Option T`.
  * A Go slice `[]T` is `List T`; a Go `map[K]V` is an association list
    `List (K × V)` (no map operations occur in the package).
  * Go struct embedding is composition: `structure ... extends ...`, which
    introduces a named field holding the base structure.
  * `interface\x7b\x7d`-typed values are opaque JSON payloads, embedded as
    `RawJson`, a wrapper around the raw JSON text that is never interpreted.
-/

namespace protocol

/-- Package-level error code constant: returned when a request is cancelled
early. From the `const` block of basic.go. -/
def CodeRequestCancelled : Int := -32800

/-- DocumentURI represents the URI of a document; over the wire it is a
string. -/
abbrev DocumentURI := String

/-- Position in a text document expressed as zero-based line and zero-based
character offset. -/
structure Position where
  Line : Rat
  Character : Rat

/-- Range in a text document expressed as (zero-based) start and end
positions; the end position is exclusive. -/
structure Range where
  Start : Position
  End : Position

/-- Location represents a location inside a resource. -/
structure Location where
  URI : DocumentURI
  Range : protocol.Range

/-- LocationLink represents a link between a source and a target location. -/
structure LocationLink where
  OriginSelectionRange : Option protocol.Range
  TargetURI : String
  TargetRange : protocol.Range
  TargetSelectionRange : Option protocol.Range

/-- DiagnosticSeverity indicates the severity of a Diagnostic message
(Go `float64`). -/
abbrev DiagnosticSeverity := Rat

/-- SeverityError reports an error. -/
def SeverityError : DiagnosticSeverity := 1

/-- SeverityWarning reports a warning. -/
def SeverityWarning : DiagnosticSeverity := 2

/-- SeverityInformation reports an information. -/
def SeverityInformation : DiagnosticSeverity := 3

/-- SeverityHint reports a hint. -/
def SeverityHint : DiagnosticSeverity := 4

/-- DiagnosticRelatedInformation represents a related message and source
code location for a diagnostic. -/
structure DiagnosticRelatedInformation where
  Location : protocol.Location
  Message : String

/-- Diagnostic represents a diagnostic, such as a compiler error or
warning. `Code` is a plain Go `string` in the source. -/
structure Diagnostic where
  Range : protocol.Range
  Severity : DiagnosticSeverity
  Code : String
  Source : String
  Message : String
  Related : List DiagnosticRelatedInformation

/-- An opaque JSON value: raw JSON text carried through without being
interpreted by the schema layer (the embedding of Go `interface\x7b\x7d`
payload positions). -/
structure RawJson where
  raw : String
deriving DecidableEq

/-- Command represents a reference to a command; `Arguments` is
`[]interface\x7b\x7d` in the source, a list of opaque JSON values. -/
structure Command where
  Title : String
  Command : String
  Arguments : List RawJson

/-- TextEdit is a textual edit applicable to a text document. -/
structure TextEdit where
  Range : protocol.Range
  NewText : String

/-- TextDocumentIdentifier identifies a document using a URI. -/
structure TextDocumentIdentifier where
  URI : DocumentURI

/-- TextDocumentItem is an item to transfer a text document from the client
to the server; its `Version` is a non-nullable Go `float64`. -/
structure TextDocumentItem where
  URI : DocumentURI
  LanguageID : String
  Version : Rat
  Text : String

/-- VersionedTextDocumentIdentifier denotes a specific version of a text
document. It embeds TextDocumentIdentifier (composition: the
`toTextDocumentIdentifier` field), and its `Version` is `*uint64` in the
source — nullable, `none` meaning the content on disk is the truth. -/
structure VersionedTextDocumentIdentifier extends TextDocumentIdentifier where
  Version : Option Nat

/-- TextDocumentEdit describes textual changes on a single text document. -/
structure TextDocumentEdit where
  TextDocument : VersionedTextDocumentIdentifier
  Edits : List TextEdit

/-- WorkspaceEdit represents changes to many resources managed in the
workspace; `Changes` is a Go map embedded as an association list. -/
structure WorkspaceEdit where
  Changes : List (DocumentURI × List TextEdit)
  DocumentChanges : List TextDocumentEdit

/-- TextDocumentPositionParams passes a text document and a position inside
that document. -/
structure TextDocumentPositionParams where
  TextDocument : TextDocumentIdentifier
  Position : protocol.Position

/-- DocumentFilter denotes a document through properties like language,
scheme or pattern. -/
structure DocumentFilter where
  Language : String
  Scheme : String
  Pattern : String

/-- DocumentSelector is the combination of one or more document filters. -/
abbrev DocumentSelector := List DocumentFilter

/-- MarkupKind describes the content type that a client supports; kinds
must not start with a dollar character, which is reserved. -/
abbrev MarkupKind := String

/-- PlainText is supported as a content format. -/
def PlainText : MarkupKind := "plaintext"

/-- Markdown is supported as a content format. -/
def Markdown : MarkupKind := "markdown"

/-- MarkupContent represents a string literal whose content is interpreted
based on its kind flag. -/
structure MarkupContent where
  Kind : MarkupKind
  Value : String

/-- PublishDiagnosticsParams: parameters of
textDocument/publishDiagnostics (second shown file of the package). -/
structure PublishDiagnosticsParams where
  URI : DocumentURI
  Diagnostics : List Diagnostic

/-
  Syntactic model of the package: the list of top-level Go declarations of
  the shown source files, transcribed declaration by declaration. A struct
  field is (name, type, json tag).
-/

/-- Shape of a Go type expression as it appears in the shown source. -/
inductive GoType where
  | string : GoType
  | float64 : GoType
  | uint64 : GoType
  | iface : GoType
  | named (n : String) : GoType
  | ptr (t : GoType) : GoType
  | slice (t : GoType) : GoType
  | map (key val : GoType) : GoType
deriving DecidableEq

/-- Value of a Go constant declaration in the shown source. -/
inductive GoConstVal where
  | int (i : Int) : GoConstVal
  | str (s : String) : GoConstVal
deriving DecidableEq

/-- A top-level Go declaration: a struct type (with its embedded types and
its fields), a named (non-struct) type, a constant, or a function/method
(the last never occurs in the shown source; the constructor exists so that
its absence is an assertion, not an artifact of the model). -/
inductive GoDecl where
  | typeStruct (name : String) (embeds : List String)
      (fields : List (String × GoType × String)) : GoDecl
  | typeNamed (name : String) (underlying : GoType) : GoDecl
  | constDecl (name : String) (ty : Option String) (val : GoConstVal) : GoDecl
  | funcDecl (name : String) (isMethod : Bool) : GoDecl
deriving DecidableEq

/-- Name introduced by a Go declaration. -/
def GoDecl.name : GoDecl → String
  | .typeStruct n _ _ => n
  | .typeNamed n _ => n
  | .constDecl n _ _ => n
  | .funcDecl n _ => n

/-- Is the declaration a type definition? -/
def GoDecl.isTypeDecl : GoDecl → Bool
  | .typeStruct _ _ _ => true
  | .typeNamed _ _ => true
  | _ => false

/-- Is the declaration a constant? -/
def GoDecl.isConstDecl : GoDecl → Bool
  | .constDecl _ _ _ => true
  | _ => false

/-- Is the declaration a function or method? -/
def GoDecl.isFuncDecl : GoDecl → Bool
  | .funcDecl _ _ => true
  | _ => false

/-- The top-level declarations of the shown source of package protocol
(basic.go and the diagnostics file), in source order. -/
def basicGoDecls : List GoDecl := [
  .constDecl "CodeRequestCancelled" none (.int (-32800)),
  .typeNamed "DocumentURI" .string,
  .typeStruct "Position" []
    [("Line", .float64, "line"),
     ("Character", .float64, "character")],
  .typeStruct "Range" []
    [("Start", .named "Position", "start"),
     ("End", .named "Position", "end")],
  .typeStruct "Location" []
    [("URI", .named "DocumentURI", "uri"),
     ("Range", .named "Range", "range")],
  .typeStruct "LocationLink" []
    [("OriginSelectionRange", .ptr (.named "Range"), "originSelectionRange,omitempty"),
     ("TargetURI", .string, "targetUri"),
     ("TargetRange", .named "Range", "targetRange"),
     ("TargetSelectionRange", .ptr (.named "Range"), "targetSeletionRange,omitempty")],
  .typeStruct "Diagnostic" []
    [("Range", .named "Range", "range"),
     ("Severity", .named "DiagnosticSeverity", "severity,omitempty"),
     ("Code", .string, "code,omitempty"),
     ("Source", .string, "source,omitempty"),
     ("Message", .string, "message"),
     ("Related", .slice (.named "DiagnosticRelatedInformation"), "relatedInformation,omitempty")],
  .typeNamed "DiagnosticSeverity" .float64,
  .constDecl "SeverityError" (some "DiagnosticSeverity") (.int 1),
  .constDecl "SeverityWarning" (some "DiagnosticSeverity") (.int 2),
  .constDecl "SeverityInformation" (some "DiagnosticSeverity") (.int 3),
  .constDecl "SeverityHint" (some "DiagnosticSeverity") (.int 4),
  .typeStruct "DiagnosticRelatedInformation" []
    [("Location", .named "Location", "location"),
     ("Message", .string, "message")],
  .typeStruct "Command" []
    [("Title", .string, "title"),
     ("Command", .string, "command"),
     ("Arguments", .slice .iface, "arguments,omitempty")],
  .typeStruct "TextEdit" []
    [("Range", .named "Range", "range"),
     ("NewText", .string, "newText")],
  .typeStruct "TextDocumentEdit" []
    [("TextDocument", .named "VersionedTextDocumentIdentifier", "textDocument"),
     ("Edits", .slice (.named "TextEdit"), "edits")],
  .typeStruct "WorkspaceEdit" []
    [("Changes", .map (.named "DocumentURI") (.slice (.named "TextEdit")), "changes,omitempty"),
     ("DocumentChanges", .slice (.named "TextDocumentEdit"), "documentChanges,omitempty")],
  .typeStruct "TextDocumentIdentifier" []
    [("URI", .named "DocumentURI", "uri")],
  .typeStruct "TextDocumentItem" []
    [("URI", .named "DocumentURI", "uri"),
     ("LanguageID", .string, "languageId"),
     ("Version", .float64, "version"),
     ("Text", .string, "text")],
  .typeStruct "VersionedTextDocumentIdentifier" ["TextDocumentIdentifier"]
    [("Version", .ptr .uint64, "version")],
  .typeStruct "TextDocumentPositionParams" []
    [("TextDocument", .named "TextDocumentIdentifier", "textDocument"),
     ("Position", .named "Position", "position")],
  .typeStruct "DocumentFilter" []
    [("Language", .string, "language,omitempty"),
     ("Scheme", .string, "scheme,omitempty"),
     ("Pattern", .string, "pattern,omitempty")],
  .typeNamed "DocumentSelector" (.slice (.named "DocumentFilter")),
  .typeNamed "MarkupKind" .string,
  .constDecl "PlainText" (some "MarkupKind") (.str "plaintext"),
  .constDecl "Markdown" (some "MarkupKind") (.str "markdown"),
  .typeStruct "MarkupContent" []
    [("Kind", .named "MarkupKind", "kind"),
     ("Value", .string, "value")],
  .typeStruct "PublishDiagnosticsParams" []
    [("URI", .named "DocumentURI", "uri"),
     ("Diagnostics", .slice (.named "Diagnostic"), "diagnostics")]]

/-- Field list of the struct declaration named `ty`, when one exists. -/
def structFields (decls : List GoDecl) (ty : String) : Option (List (String × GoType × String)) :=
  decls.findSome? fun d => match d with
    | .typeStruct n _ fs => if n = ty then some fs else none
    | _ => none

/-- Embedded-type list of the struct declaration named `ty`. -/
def structEmbeds (decls : List GoDecl) (ty : String) : Option (List String) :=
  decls.findSome? fun d => match d with
    | .typeStruct n es _ => if n = ty then some es else none
    | _ => none

/-- Declared Go type of field `f` of struct `ty`. -/
def fieldType (decls : List GoDecl) (ty f : String) : Option GoType :=
  (structFields decls ty).bind fun fs =>
    fs.findSome? fun p => if p.1 = f then some p.2.1 else none

/-- JSON tag of field `f` of struct `ty`. -/
def fieldTag (decls : List GoDecl) (ty f : String) : Option String :=
  (structFields decls ty).bind fun fs =>
    fs.findSome? fun p => if p.1 = f then some p.2.2 else none

/-- Value of the constant declaration named `n`. -/
def constVal (decls : List GoDecl) (n : String) : Option GoConstVal :=
  decls.findSome? fun d => match d with
    | .constDecl m _ v => if m = n then some v else none
    | _ => none

namespace Codec

/-
  Modelled from the spec: the JSON-RPC Codec component (spec sections 4.1
  and 6) is not part of the shown source files; the following definitions
  embed its contract from the spec's words. The byte stream is a list of
  characters; byte counts are UTF-8 byte counts of those characters, so
  `Content-Length` is the UTF-8 byte length of the JSON body, as the spec
  requires. Opaque `params`/`result`/`data` payloads are `RawJson` values,
  raw JSON text spliced verbatim, per the spec's design note.
-/

/-- Modelled from the spec: a JSON-RPC message id, "a number or string". -/
inductive RpcId where
  | num (i : Int) : RpcId
  | str (s : String) : RpcId
deriving DecidableEq

/-- Modelled from the spec: the resolution of a Response — exactly one of
result or error is present. -/
inductive Outcome where
  | ok (result : RawJson) : Outcome
  | err (code : Int) (message : String) (data : RawJson) : Outcome
deriving DecidableEq

/-- Modelled from the spec: an Envelope is one JSON-RPC message unit, a
tagged variant of Request, Response and Notification; the id is absent on
a Notification. -/
inductive Envelope where
  | request (id : RpcId) (method : String) (params : RawJson) : Envelope
  | notification (method : String) (params : RawJson) : Envelope
  | response (id : RpcId) (outcome : Outcome) : Envelope
deriving DecidableEq

/-- The decimal digit character for `k < 10`. -/
def digitChar : Nat → Char
  | 0 => '0' | 1 => '1' | 2 => '2' | 3 => '3' | 4 => '4'
  | 5 => '5' | 6 => '6' | 7 => '7' | 8 => '8' | _ => '9'

/-- Numeric value of a decimal digit character. -/
def digitVal (c : Char) : Nat := c.toNat - 48

/-- Decimal digits of `n`, most significant first, by fuel-bounded
recursion (any fuel above `n` is enough). -/
def toDecAux : Nat → Nat → List Char
  | 0, _ => []
  | fuel + 1, n =>
    if n < 10 then [digitChar n]
    else toDecAux fuel (n / 10) ++ [digitChar (n % 10)]

/-- Decimal representation of a natural number, most significant digit
first. -/
def toDec (n : Nat) : List Char := toDecAux (n + 1) n

/-- Value of a string of decimal digits. -/
def fromDec (cs : List Char) : Nat :=
  cs.foldl (fun a c => 10 * a + digitVal c) 0

/-- The hexadecimal digit character for `k < 16`. -/
def hexChar : Nat → Char
  | 0 => '0' | 1 => '1' | 2 => '2' | 3 => '3' | 4 => '4'
  | 5 => '5' | 6 => '6' | 7 => '7' | 8 => '8' | 9 => '9'
  | 10 => 'a' | 11 => 'b' | 12 => 'c' | 13 => 'd' | 14 => 'e' | _ => 'f'

/-- Numeric value of a hexadecimal digit character. -/
def hexVal (c : Char) : Nat :=
  if c.toNat ≥ 97 then c.toNat - 87 else c.toNat - 48

/-- Number of bytes of the UTF-8 encoding of one character. -/
def charBytes (c : Char) : Nat :=
  if c.toNat < 0x80 then 1
  else if c.toNat < 0x800 then 2
  else if c.toNat < 0x10000 then 3
  else 4

/-- UTF-8 byte length of a character sequence. -/
def utf8Len : List Char → Nat
  | [] => 0
  | c :: cs => charBytes c + utf8Len cs

/-- Read exactly `n` bytes from the stream: take characters whose UTF-8
sizes sum to exactly `n`, returning them and the rest of the stream. -/
def takeBytes : Nat → List Char → Option (List Char × List Char)
  | n, [] => if n = 0 then some ([], []) else none
  | n, c :: cs =>
    if n = 0 then some ([], c :: cs)
    else if charBytes c ≤ n then
      (takeBytes (n - charBytes c) cs).map (fun p => (c :: p.1, p.2))
    else none

/-- The character sequence of a string literal. -/
def lit (s : String) : List Char := s.data

/-- Consume an expected sequence from the front of the stream, or fail. -/
def dropLit : List Char → List Char → Option (List Char)
  | [], cs => some cs
  | _ :: _, [] => none
  | p :: ps, c :: cs => if p = c then dropLit ps cs else none

/-- Require the stream to end with the expected suffix and return what
comes before it. -/
def dropSuffix (suf cs : List Char) : Option (List Char) :=
  let n := cs.length - suf.length
  if cs.drop n = suf then some (cs.take n) else none

/-- JSON escape of one character: quote and backslash get a backslash
escape, control characters a \u00XX escape, everything else is literal. -/
def escChar (c : Char) : List Char :=
  if c = '"' then ['\\', '"']
  else if c = '\\' then ['\\', '\\']
  else if c.toNat < 0x20 then
    ['\\', 'u', '0', '0', hexChar (c.toNat / 16), hexChar (c.toNat % 16)]
  else [c]

/-- JSON escape of a character sequence. -/
def escape : List Char → List Char
  | [] => []
  | c :: cs => escChar c ++ escape cs

/-- Print a JSON string literal: opening quote, escaped content, closing
quote. -/
def printStr (s : String) : List Char := '"' :: (escape s.data ++ ['"'])

/-- Parse the remainder of a JSON string literal (after its opening
quote), undoing the escapes, up to the closing quote. -/
def parseStrAux : List Char → Option (List Char × List Char)
  | [] => none
  | c :: cs =>
    if c = '"' then some ([], cs)
    else if c = '\\' then
      match cs with
      | '"' :: cs => (parseStrAux cs).map (fun p => ('"' :: p.1, p.2))
      | '\\' :: cs => (parseStrAux cs).map (fun p => ('\\' :: p.1, p.2))
      | 'u' :: '0' :: '0' :: h1 :: h2 :: cs =>
        (parseStrAux cs).map
          (fun p => (Char.ofNat (16 * hexVal h1 + hexVal h2) :: p.1, p.2))
      | _ => none
    else (parseStrAux cs).map (fun p => (c :: p.1, p.2))

/-- Parse a JSON string literal, opening quote included. -/
def parseStr : List Char → Option (String × List Char)
  | '"' :: cs => (parseStrAux cs).map (fun p => (String.mk p.1, p.2))
  | _ => none

/-- Does the stream start with a decimal digit? -/
def headIsDigit : List Char → Bool
  | [] => false
  | c :: _ => c.isDigit

/-- Split the longest leading run of decimal digits off the stream. -/
def takeDigits : List Char → List Char × List Char
  | [] => ([], [])
  | c :: cs =>
    if c.isDigit then
      let p := takeDigits cs
      (c :: p.1, p.2)
    else ([], c :: cs)

/-- Parse a nonempty run of decimal digits as a natural number. -/
def parseNatPart (cs : List Char) : Option (Nat × List Char) :=
  let p := takeDigits cs
  if p.1 = [] then none else some (fromDec p.1, p.2)

/-- Parse a JSON integer: an optional minus sign then decimal digits. -/
def parseInt : List Char → Option (Int × List Char)
  | [] => none
  | c :: cs =>
    if c = '-' then (parseNatPart cs).map (fun p => (-(p.1 : Int), p.2))
    else (parseNatPart (c :: cs)).map (fun p => ((p.1 : Int), p.2))

/-- Print a JSON integer. -/
def printInt (i : Int) : List Char :=
  if i < 0 then '-' :: toDec i.natAbs else toDec i.natAbs

/-- Print a message id: a number or a string. -/
def printRpcId : RpcId → List Char
  | .num i => printInt i
  | .str s => printStr s

/-- Parse a message id, a number or a string, told apart by the leading
character. -/
def parseRpcId : List Char → Option (RpcId × List Char)
  | [] => none
  | c :: cs =>
    if c = '"' then (parseStr (c :: cs)).map (fun p => (.str p.1, p.2))
    else (parseInt (c :: cs)).map (fun p => (.num p.1, p.2))

/-- Modelled from the spec: the UTF-8 JSON body of an Envelope, fields in
the order of spec section 6: jsonrpc, id, method, params, result, error;
opaque payloads spliced verbatim as raw JSON text. -/
def printBody : Envelope → List Char
  | .request id method params =>
    lit "\x7b\"jsonrpc\":\"2.0\"," ++ (lit "\"id\":" ++ (printRpcId id ++
      (lit "," ++ (lit "\"method\":" ++ (printStr method ++
        (lit ",\"params\":" ++ (params.raw.data ++ lit "\x7d")))))))
  | .notification method params =>
    lit "\x7b\"jsonrpc\":\"2.0\"," ++ (lit "\"method\":" ++ (printStr method ++
      (lit ",\"params\":" ++ (params.raw.data ++ lit "\x7d"))))
  | .response id (.ok result) =>
    lit "\x7b\"jsonrpc\":\"2.0\"," ++ (lit "\"id\":" ++ (printRpcId id ++
      (lit "," ++ (lit "\"result\":" ++ (result.raw.data ++ lit "\x7d")))))
  | .response id (.err code message data) =>
    lit "\x7b\"jsonrpc\":\"2.0\"," ++ (lit "\"id\":" ++ (printRpcId id ++
      (lit "," ++ (lit "\"error\":\x7b\"code\":" ++ (printInt code ++
        (lit ",\"message\":" ++ (printStr message ++
          (lit ",\"data\":" ++ (data.raw.data ++ lit "\x7d\x7d")))))))))

/-- Modelled from the spec: classify a JSON body into the Request,
Response or Notification variant by the presence of id, method, result
and error members, recovering the opaque payloads verbatim. -/
def parseBody (body : List Char) : Option Envelope :=
  match dropLit (lit "\x7b\"jsonrpc\":\"2.0\",") body with
  | none => none
  | some s1 =>
    match dropLit (lit "\"id\":") s1 with
    | some s2 =>
      match parseRpcId s2 with
      | none => none
      | some (idv, s3) =>
        match dropLit (lit ",") s3 with
        | none => none
        | some s4 =>
          match dropLit (lit "\"method\":") s4 with
          | some s5 =>
            match parseStr s5 with
            | none => none
            | some (m, s6) =>
              match dropLit (lit ",\"params\":") s6 with
              | none => none
              | some s7 =>
                match dropSuffix (lit "\x7d") s7 with
                | none => none
                | some p => some (.request idv m ⟨String.mk p⟩)
          | none =>
            match dropLit (lit "\"result\":") s4 with
            | some s5 =>
              match dropSuffix (lit "\x7d") s5 with
              | none => none
              | some res => some (.response idv (.ok ⟨String.mk res⟩))
            | none =>
              match dropLit (lit "\"error\":\x7b\"code\":") s4 with
              | none => none
              | some s5 =>
                match parseInt s5 with
                | none => none
                | some (code, s6) =>
                  match dropLit (lit ",\"message\":") s6 with
                  | none => none
                  | some s7 =>
                    match parseStr s7 with
                    | none => none
                    | some (msg, s8) =>
                      match dropLit (lit ",\"data\":") s8 with
                      | none => none
                      | some s9 =>
                        match dropSuffix (lit "\x7d\x7d") s9 with
                        | none => none
                        | some d =>
                          some (.response idv (.err code msg ⟨String.mk d⟩))
    | none =>
      match dropLit (lit "\"method\":") s1 with
      | none => none
      | some s2 =>
        match parseStr s2 with
        | none => none
        | some (m, s3) =>
          match dropLit (lit ",\"params\":") s3 with
          | none => none
          | some s4 =>
            match dropSuffix (lit "\x7d") s4 with
            | none => none
            | some p => some (.notification m ⟨String.mk p⟩)

/-- Modelled from the spec: encode prefixes a Content-Length header — the
UTF-8 byte count of the JSON body — followed by a blank line and the
body. -/
def encode (e : Envelope) : List Char :=
  lit "Content-Length: " ++ (toDec (utf8Len (printBody e)) ++
    (lit "\r\n\r\n" ++ printBody e))

/-- Modelled from the spec: decode reads the Content-Length header up to
the blank line, then exactly that many bytes, parses them as a JSON body
and classifies it into the Envelope variant; the unread remainder of the
stream is returned alongside. -/
def decode (stream : List Char) : Option (Envelope × List Char) :=
  match dropLit (lit "Content-Length: ") stream with
  | none => none
  | some s1 =>
    match parseNatPart s1 with
    | none => none
    | some (n, s2) =>
      match dropLit (lit "\r\n\r\n") s2 with
      | none => none
      | some s3 =>
        match takeBytes n s3 with
        | none => none
        | some (body, rest) =>
          match parseBody body with
          | none => none
          | some e => some (e, rest)

end Codec

/-
  Theorems. First the round-trip development for the Codec model, then the
  theorems settling the claims about the schema package.
-/

namespace Codec

theorem digitVal_digitChar {k : Nat} (h : k < 10) : digitVal (digitChar k) = k := by
  interval_cases k <;> rfl

theorem isDigit_digitChar {k : Nat} (h : k < 10) : (digitChar k).isDigit = true := by
  interval_cases k <;> rfl

theorem hexVal_hexChar {k : Nat} (h : k < 16) : hexVal (hexChar k) = k := by
  interval_cases k <;> rfl

theorem toDecAux_ne_nil : ∀ fuel n, n < fuel → toDecAux fuel n ≠ [] := by
  intro fuel
  induction fuel with
  | zero => omega
  | succ fuel ih =>
    intro n hn
    rw [toDecAux]
    split <;> simp

theorem toDec_ne_nil (n : Nat) : toDec n ≠ [] :=
  toDecAux_ne_nil (n + 1) n (by omega)

theorem toDecAux_digits : ∀ fuel n, n < fuel → ∀ c ∈ toDecAux fuel n, c.isDigit = true := by
  intro fuel
  induction fuel with
  | zero => omega
  | succ fuel ih =>
    intro n hn
    rw [toDecAux]
    split
    · next h =>
      intro c hc
      simp only [List.mem_singleton] at hc
      subst hc
      exact isDigit_digitChar h
    · next h =>
      intro c hc
      rcases List.mem_append.mp hc with hc | hc
      · exact ih (n / 10) (by omega) c hc
      · simp only [List.mem_singleton] at hc
        subst hc
        exact isDigit_digitChar (Nat.mod_lt _ (by omega))

theorem toDec_digits (n : Nat) : ∀ c ∈ toDec n, c.isDigit = true :=
  toDecAux_digits (n + 1) n (by omega)

theorem fromDec_append (l : List Char) (d : Char) :
    fromDec (l ++ [d]) = 10 * fromDec l + digitVal d := by
  simp [fromDec, List.foldl_append]

theorem fromDec_toDecAux : ∀ fuel n, n < fuel → fromDec (toDecAux fuel n) = n := by
  intro fuel
  induction fuel with
  | zero => omega
  | succ fuel ih =>
    intro n hn
    rw [toDecAux]
    split
    · next h => simp [fromDec, digitVal_digitChar h]
    · next h =>
      rw [fromDec_append, ih (n / 10) (by omega),
        digitVal_digitChar (Nat.mod_lt _ (by omega))]
      omega

theorem fromDec_toDec (n : Nat) : fromDec (toDec n) = n :=
  fromDec_toDecAux (n + 1) n (by omega)

theorem charBytes_pos (c : Char) : 1 ≤ charBytes c := by
  unfold charBytes
  split_ifs <;> omega

theorem takeBytes_exact (s r : List Char) :
    takeBytes (utf8Len s) (s ++ r) = some (s, r) := by
  induction s with
  | nil =>
    cases r with
    | nil => rfl
    | cons c r => rfl
  | cons c s ih =>
    have h1 := charBytes_pos c
    have hz : ¬ (utf8Len (c :: s) = 0) := by
      simp only [utf8Len]
      omega
    have hle : charBytes c ≤ utf8Len (c :: s) := by
      simp only [utf8Len]
      omega
    have hsub : utf8Len (c :: s) - charBytes c = utf8Len s := by
      simp only [utf8Len]
      omega
    rw [List.cons_append, takeBytes]
    simp only [if_neg hz, if_pos hle, hsub, ih, Option.map_some']

theorem takeBytes_all (s : List Char) : takeBytes (utf8Len s) s = some (s, []) := by
  have h := takeBytes_exact s []
  rwa [List.append_nil] at h

theorem dropLit_append (p r : List Char) : dropLit p (p ++ r) = some r := by
  induction p with
  | nil => rfl
  | cons c p ih => simp [dropLit, ih]

theorem dropSuffix_append (l suf : List Char) : dropSuffix suf (l ++ suf) = some l := by
  simp only [dropSuffix]
  have hn : (l ++ suf).length - suf.length = l.length := by simp
  rw [hn, List.drop_left, List.take_left, if_pos rfl]

theorem parseStrAux_escape (l r : List Char) :
    parseStrAux (escape l ++ ('"' :: r)) = some (l, r) := by
  induction l with
  | nil =>
    have h0 : escape [] ++ ('"' :: r) = '"' :: r := by simp [escape]
    rw [h0, parseStrAux.eq_def]
    simp
  | cons c l ih =>
    by_cases h1 : c = '"'
    · subst h1
      simp [escape, escChar, parseStrAux, ih]
    · by_cases h2 : c = '\\'
      · subst h2
        simp [escape, escChar, parseStrAux, ih]
      · by_cases h3 : c.toNat < 0x20
        · have hv : 16 * hexVal (hexChar (c.toNat / 16)) + hexVal (hexChar (c.toNat % 16))
              = c.toNat := by
            rw [hexVal_hexChar (by omega), hexVal_hexChar (by omega)]
            omega
          simp [escape, escChar, h1, h2, h3, parseStrAux, hv, Char.ofNat_toNat, ih]
        · have h4 : escape (c :: l) ++ ('"' :: r) = c :: (escape l ++ ('"' :: r)) := by
            simp [escape, escChar, h1, h2, h3]
          rw [h4, parseStrAux.eq_def]
          simp [h1, h2, ih]

theorem parseStr_printStr (s : String) (r : List Char) :
    parseStr (printStr s ++ r) = some (s, r) := by
  obtain ⟨l⟩ := s
  have hsh : printStr (String.mk l) ++ r = '"' :: (escape l ++ ('"' :: r)) := by
    simp [printStr, List.append_assoc]
  rw [hsh]
  simp [parseStr, parseStrAux_escape]

theorem takeDigits_append (d r : List Char) (hd : ∀ c ∈ d, c.isDigit = true)
    (hr : headIsDigit r = false) : takeDigits (d ++ r) = (d, r) := by
  induction d with
  | nil =>
    simp only [List.nil_append]
    cases r with
    | nil => rfl
    | cons c cs =>
      simp only [headIsDigit] at hr
      simp [takeDigits, hr]
  | cons c d ih =>
    have hc : c.isDigit = true := hd c (by simp)
    simp [takeDigits, hc, ih (fun x hx => hd x (by simp [hx]))]

theorem parseNat_toDec (n : Nat) (r : List Char) (hr : headIsDigit r = false) :
    parseNatPart (toDec n ++ r) = some (n, r) := by
  simp only [parseNatPart]
  rw [takeDigits_append (toDec n) r (toDec_digits n) hr]
  simp [toDec_ne_nil n, fromDec_toDec]

theorem parseInt_printInt (i : Int) (r : List Char) (hr : headIsDigit r = false) :
    parseInt (printInt i ++ r) = some (i, r) := by
  rw [printInt]
  split
  · next h =>
    rw [List.cons_append, parseInt]
    rw [if_pos rfl, parseNat_toDec _ _ hr]
    simp only [Option.map_some']
    have : -((i.natAbs : Nat) : Int) = i := by omega
    rw [this]
  · next h =>
    obtain ⟨c, cs, hcons, hdig⟩ : ∃ c cs, toDec i.natAbs = c :: cs ∧ c.isDigit = true := by
      cases htd : toDec i.natAbs with
      | nil => exact absurd htd (toDec_ne_nil _)
      | cons c cs => exact ⟨c, cs, rfl, toDec_digits _ c (by rw [htd]; simp)⟩
    have hcm : ¬ (c = '-') := by
      intro he
      subst he
      exact absurd hdig (by decide)
    rw [hcons, List.cons_append, parseInt, if_neg hcm, ← List.cons_append, ← hcons,
      parseNat_toDec _ _ hr]
    simp only [Option.map_some']
    have : ((i.natAbs : Nat) : Int) = i := by omega
    rw [this]

theorem parseRpcId_printRpcId (v : RpcId) (r : List Char) (hr : headIsDigit r = false) :
    parseRpcId (printRpcId v ++ r) = some (v, r) := by
  cases v with
  | str s =>
    rw [printRpcId, printStr, List.cons_append, parseRpcId, if_pos rfl, ← List.cons_append,
      ← printStr, parseStr_printStr]
    rfl
  | num i =>
    obtain ⟨c, cs, hcons, hcq⟩ : ∃ c cs, printInt i = c :: cs ∧ ¬ (c = '"') := by
      rw [printInt]
      split
      · exact ⟨'-', toDec i.natAbs, rfl, by decide⟩
      · cases htd : toDec i.natAbs with
        | nil => exact absurd htd (toDec_ne_nil _)
        | cons c cs =>
          refine ⟨c, cs, rfl, ?_⟩
          have hdig : c.isDigit = true := toDec_digits _ c (by rw [htd]; simp)
          intro he
          subst he
          exact absurd hdig (by decide)
    rw [printRpcId, hcons, List.cons_append, parseRpcId, if_neg hcq, ← List.cons_append,
      ← hcons, parseInt_printInt _ _ hr]
    rfl

theorem headIsDigit_comma (x : List Char) : headIsDigit (lit "," ++ x) = false := rfl

theorem headIsDigit_message (x : List Char) :
    headIsDigit (lit ",\"message\":" ++ x) = false := rfl

theorem headIsDigit_crlf (x : List Char) : headIsDigit (lit "\r\n\r\n" ++ x) = false := rfl

theorem dropLit_id_method (r : List Char) :
    dropLit (lit "\"id\":") (lit "\"method\":" ++ r) = none := rfl

theorem dropLit_method_result (r : List Char) :
    dropLit (lit "\"method\":") (lit "\"result\":" ++ r) = none := rfl

theorem dropLit_method_error (r : List Char) :
    dropLit (lit "\"method\":") (lit "\"error\":\x7b\"code\":" ++ r) = none := rfl

theorem dropLit_result_error (r : List Char) :
    dropLit (lit "\"result\":") (lit "\"error\":\x7b\"code\":" ++ r) = none := rfl

theorem parseBody_printBody (e : Envelope) : parseBody (printBody e) = some e := by
  cases e with
  | request id m p =>
    obtain ⟨⟨pl⟩⟩ := p
    rw [printBody, parseBody]
    simp only [dropLit_append, dropLit_id_method,
      parseRpcId_printRpcId _ _ (headIsDigit_comma _),
      parseStr_printStr, dropSuffix_append]
  | notification m p =>
    obtain ⟨⟨pl⟩⟩ := p
    rw [printBody, parseBody]
    simp only [dropLit_append, dropLit_id_method, parseStr_printStr, dropSuffix_append]
  | response id oc =>
    cases oc with
    | ok res =>
      obtain ⟨⟨rl⟩⟩ := res
      rw [printBody, parseBody]
      simp only [dropLit_append, dropLit_method_result,
        parseRpcId_printRpcId _ _ (headIsDigit_comma _), dropSuffix_append]
    | err code msg d =>
      obtain ⟨⟨dl⟩⟩ := d
      rw [printBody, parseBody]
      simp only [dropLit_append, dropLit_method_error, dropLit_result_error,
        parseRpcId_printRpcId _ _ (headIsDigit_comma _),
        parseInt_printInt _ _ (headIsDigit_message _),
        parseStr_printStr, dropSuffix_append]

/-- Claim C5: for all Envelopes E, decoding the encoding of E yields E
again — decode(encode(E)) == E — where encode prefixes a Content-Length
header counting the UTF-8 bytes of the JSON body and decode reads the
header, then exactly that many bytes, and classifies the parsed object
into the Request/Response/Notification variant. -/
theorem C5_decode_encode_roundtrip (e : Envelope) :
    decode (encode e) = some (e, []) := by
  rw [encode, decode]
  simp only [dropLit_append, parseNat_toDec, headIsDigit_crlf, takeBytes_all,
    parseBody_printBody]

theorem decode_encode_sample :
    decode (encode (.request (.num 1) "foo" ⟨"\x7b\x7d"⟩))
      = some (.request (.num 1) "foo" ⟨"\x7b\x7d"⟩, []) := by decide

end Codec

/-- Claim C1: the package declares a schema type for each payload data kind
named by the spec — type declarations named Position, Range, Location,
Diagnostic, TextEdit and WorkspaceEdit all exist (and each type is
inhabited). -/
theorem C1_payload_schema_types_present :
    (["Position", "Range", "Location", "Diagnostic", "TextEdit", "WorkspaceEdit"].all
      (fun n => basicGoDecls.any (fun d => d.isTypeDecl && d.name == n))) = true
    ∧ Nonempty Position ∧ Nonempty protocol.Range ∧ Nonempty Location ∧ Nonempty Diagnostic
    ∧ Nonempty TextEdit ∧ Nonempty WorkspaceEdit :=
  ⟨by decide, ⟨⟨0, 0⟩⟩, ⟨⟨⟨0, 0⟩, ⟨0, 0⟩⟩⟩, ⟨⟨"", ⟨⟨0, 0⟩, ⟨0, 0⟩⟩⟩⟩,
    ⟨⟨⟨⟨0, 0⟩, ⟨0, 0⟩⟩, 0, "", "", "", []⟩⟩, ⟨⟨⟨⟨0, 0⟩, ⟨0, 0⟩⟩, ""⟩⟩, ⟨⟨[], []⟩⟩⟩

/-- Claim C2: the shown code is purely declarative — every top-level
declaration of the package is a type definition or a constant, and no
function or method declaration occurs anywhere in the shown source. -/
theorem C2_declarations_only :
    basicGoDecls.all (fun d => d.isTypeDecl || d.isConstDecl) = true
    ∧ basicGoDecls.all (fun d => !d.isFuncDecl) = true := by
  exact ⟨by decide, by decide⟩

/-- Claim C3: the Code field of Diagnostic is a single string type — not a
tagged union — so every Diagnostic value carries its code as a string. -/
theorem C3_diagnostic_code_single_string :
    fieldType basicGoDecls "Diagnostic" "Code" = some GoType.string
    ∧ ∀ d : Diagnostic, ∃ s : String, d.Code = s :=
  ⟨by decide, fun d => ⟨d.Code, rfl⟩⟩

/-- Claim C4: VersionedTextDocumentIdentifier embeds
TextDocumentIdentifier (composition, not inheritance), and through the
embedded base structure a DocumentURI-typed URI field is reachable from
every value. -/
theorem C4_versioned_identifier_embedding :
    structEmbeds basicGoDecls "VersionedTextDocumentIdentifier" = some ["TextDocumentIdentifier"]
    ∧ fieldType basicGoDecls "TextDocumentIdentifier" "URI" = some (GoType.named "DocumentURI")
    ∧ ∀ v : VersionedTextDocumentIdentifier, ∃ u : DocumentURI,
        v.toTextDocumentIdentifier.URI = u :=
  ⟨by decide, by decide, fun v => ⟨v.toTextDocumentIdentifier.URI, rfl⟩⟩

/-- Claim C6: CodeRequestCancelled is a package-level named constant with
the fixed value -32800 (a Lean definition, like a Go constant, cannot be
modified after initialization). -/
theorem C6_code_request_cancelled_constant :
    CodeRequestCancelled = -32800
    ∧ constVal basicGoDecls "CodeRequestCancelled" = some (GoConstVal.int (-32800)) :=
  ⟨rfl, by decide⟩

/-- Claim C7: Command's Arguments field is a list of opaque JSON values
(Go slice of interface values); the schema layer declares no function that
could interpret them, and every argument list is raw JSON text. -/
theorem C7_command_arguments_opaque :
    fieldType basicGoDecls "Command" "Arguments" = some (GoType.slice GoType.iface)
    ∧ basicGoDecls.all (fun d => !d.isFuncDecl) = true
    ∧ ∀ c : Command, ∃ raws : List String, c.Arguments = raws.map RawJson.mk := by
  have h : ∀ l : List RawJson, l.map (fun a => RawJson.mk a.raw) = l := by
    intro l
    induction l with
    | nil => rfl
    | cons a l ih => simp [ih]
  refine ⟨by decide, by decide, fun c => ⟨c.Arguments.map RawJson.raw, ?_⟩⟩
  rw [List.map_map]
  exact (h c.Arguments).symm

/-- Claim C8: the four DiagnosticSeverity constants have the pairwise
distinct values 1, 2, 3 and 4, and the zero value of DiagnosticSeverity is
not among them, so an unset Severity field (whose json tag carries
omitempty) is distinguishable from every defined severity. -/
theorem C8_severity_values :
    SeverityError = 1 ∧ SeverityWarning = 2 ∧ SeverityInformation = 3 ∧ SeverityHint = 4
    ∧ constVal basicGoDecls "SeverityError" = some (GoConstVal.int 1)
    ∧ constVal basicGoDecls "SeverityWarning" = some (GoConstVal.int 2)
    ∧ constVal basicGoDecls "SeverityInformation" = some (GoConstVal.int 3)
    ∧ constVal basicGoDecls "SeverityHint" = some (GoConstVal.int 4)
    ∧ fieldTag basicGoDecls "Diagnostic" "Severity" = some "severity,omitempty"
    ∧ SeverityError ≠ SeverityWarning ∧ SeverityError ≠ SeverityInformation
    ∧ SeverityError ≠ SeverityHint ∧ SeverityWarning ≠ SeverityInformation
    ∧ SeverityWarning ≠ SeverityHint ∧ SeverityInformation ≠ SeverityHint
    ∧ (0 : DiagnosticSeverity) ≠ SeverityError ∧ (0 : DiagnosticSeverity) ≠ SeverityWarning
    ∧ (0 : DiagnosticSeverity) ≠ SeverityInformation
    ∧ (0 : DiagnosticSeverity) ≠ SeverityHint := by
  refine ⟨rfl, rfl, rfl, rfl, by decide, by decide, by decide, by decide, by decide,
    ?_, ?_, ?_, ?_, ?_, ?_, ?_, ?_, ?_, ?_⟩ <;>
    norm_num [SeverityError, SeverityWarning, SeverityInformation, SeverityHint]

/-- Claim C9: both MarkupKind constants, PlainText ("plaintext") and
Markdown ("markdown"), are distinct and neither starts with the reserved
dollar character. -/
theorem C9_markup_kind_constants :
    PlainText = "plaintext" ∧ Markdown = "markdown" ∧ PlainText ≠ Markdown
    ∧ (PlainText : String).data.head? ≠ some '$'
    ∧ (Markdown : String).data.head? ≠ some '$'
    ∧ constVal basicGoDecls "PlainText" = some (GoConstVal.str "plaintext")
    ∧ constVal basicGoDecls "Markdown" = some (GoConstVal.str "markdown") :=
  ⟨rfl, rfl, by decide, by decide, by decide, by decide, by decide⟩

/-- Claim C10: VersionedTextDocumentIdentifier's Version is nullable (a
pointer to uint64, so an absent version is representable), while
TextDocumentItem's Version is a non-nullable number that is always
present. -/
theorem C10_version_nullability :
    fieldType basicGoDecls "VersionedTextDocumentIdentifier" "Version"
      = some (GoType.ptr GoType.uint64)
    ∧ fieldType basicGoDecls "TextDocumentItem" "Version" = some GoType.float64
    ∧ (∃ v : VersionedTextDocumentIdentifier, v.Version = none)
    ∧ ∀ t : TextDocumentItem, ∃ x : Rat, t.Version = x :=
  ⟨by decide, by decide, ⟨⟨⟨""⟩, none⟩, rfl⟩, fun t => ⟨t.Version, rfl⟩⟩

end protocol
